import Mathlib

/-!
Verification of the asymmetric key handle abstraction declared in
`src/native/libs/System.Security.Cryptography.Native/pal_evp_pkey.h`.

The repository ships only the header: the declarations, the
`EvpPKeyExtraHandle_st` structure and the contract comments.  The
implementation file (`pal_evp_pkey.c`) is not part of the repository, so
the behaviour of each operation is modelled from the specification's
words, faithful to the header's contract comments where they speak.
Pointers are modelled as `Option` values (`none` is a null pointer),
byte buffers as `List Nat`, and the atomic reference counters as plain
integers updated in one step (the embedding is sequential, so each
operation is a single atomic state transition).
-/

set_option autoImplicit false

namespace PalEvpPkey

/-- OpenSSL algorithm identifier for RSA (`EVP_PKEY_RSA`, NID 6). -/
def EVP_PKEY_RSA : Nat := 6

/-- OpenSSL algorithm identifier for DSA (`EVP_PKEY_DSA`, NID 116). -/
def EVP_PKEY_DSA : Nat := 116

/-- OpenSSL algorithm identifier for EC (`EVP_PKEY_EC`, NID 408). -/
def EVP_PKEY_EC : Nat := 408

/-- Modelled from the spec: the key material held by a live `EVP_PKEY`
(the `EVP_PKEY` internals live in the external library, not in this
repository).  `algId` is the base algorithm identifier, `bits` the
cryptographic bit length, `pubBytes` the public component, `privBytes`
the private component when present.  `encodeErr` models the condition
in which the underlying library's DER encoder reports an error for this
key (surfaced through the library error queue). -/
structure KeyMaterial where
  algId : Nat
  bits : Nat
  pubBytes : List Nat
  privBytes : Option (List Nat)
  encodeErr : Bool
deriving DecidableEq

/-- Modelled from the spec: the state behind an `EVP_PKEY*` handle: the
library-owned reference count and the key material, which is released
(`none`) once the count reaches zero. -/
structure EvpPKey where
  refCount : Int
  material : Option KeyMaterial
deriving DecidableEq

/-- The `EvpPKeyExtraHandle_st` structure from the header: an atomic
reference count, a library context pointer and a provider pointer (the
two pointers are modelled as opaque numeric identifiers). -/
structure EvpPKeyExtraHandle where
  refCount : Int
  libCtx : Nat
  prov : Nat
deriving DecidableEq

/-- Modelled from the spec: `CryptoNative_EvpPkeyCreate` (shims
`EVP_PKEY_new`; the `.c` implementation is not in the repository).
Returns a new, empty key handle with reference count 1; allocation
failure is fatal rather than recoverable, so the function is total and
never yields a null handle. -/
def evpPkeyCreate : EvpPKey :=
  { refCount := 1
    material := some { algId := 0, bits := 0, pubBytes := [], privBytes := none,
                       encodeErr := false } }

/-- Modelled from the spec: releasing one reference on an
`EvpPKeyExtraHandle`; when its count reaches zero the context (library
context and provider instance) is torn down, modelled as `none`. -/
def extraHandleRelease (e : EvpPKeyExtraHandle) : Option EvpPKeyExtraHandle :=
  if e.refCount ≤ 1 then none else some { e with refCount := e.refCount - 1 }

/-- Modelled from the spec: `CryptoNative_EvpPkeyDestroy` (the `.c`
implementation is not in the repository).  Decrements the handle's
reference count, releasing the key material when it reaches zero; a
null handle is a no-op for the handle part; one reference on
`extraHandle` is released whenever it is non-null.  Total, hence never
fails. -/
def evpPkeyDestroy (pkey : Option EvpPKey) (extra : Option EvpPKeyExtraHandle) :
    Option EvpPKey × Option EvpPKeyExtraHandle :=
  let pkey' : Option EvpPKey :=
    match pkey with
    | none => none
    | some p => if p.refCount ≤ 1 then none else some { p with refCount := p.refCount - 1 }
  let extra' : Option EvpPKeyExtraHandle :=
    match extra with
    | none => none
    | some e => extraHandleRelease e
  (pkey', extra')

/-- Modelled from the spec: `CryptoNative_UpRefEvpPkey` (the `.c`
implementation is not in the repository).  Increments the handle's
reference count and, when `extraHandle` is non-null, the extra
context's count too; returns the post-increment count of the handle
(anything less than 2 signals the key was already being freed).  The
sequential embedding makes the increment one atomic step. -/
def upRefEvpPkey (pkey : EvpPKey) (extra : Option EvpPKeyExtraHandle) :
    Int × EvpPKey × Option EvpPKeyExtraHandle :=
  let p' : EvpPKey := { pkey with refCount := pkey.refCount + 1 }
  (p'.refCount, p', extra.map fun e => { e with refCount := e.refCount + 1 })

/-- Modelled from the spec: `CryptoNative_EvpPKeyBits` — the
cryptographic length, in bits, of the cryptosystem the key belongs to. -/
def evpPKeyBits (key : EvpPKey) : Int :=
  match key.material with
  | none => 0
  | some m => (m.bits : Int)

/-- Modelled from the spec: `CryptoNative_EvpPKeyType` (the `.c`
implementation is not in the repository).  Returns the base algorithm
identifier when it is one of RSA, EC or DSA, and 0 (unknown) for every
other algorithm; a pure classification, total, with no failure mode. -/
def evpPKeyType (key : EvpPKey) : Nat :=
  match key.material with
  | none => 0
  | some m =>
    if m.algId = EVP_PKEY_RSA ∨ m.algId = EVP_PKEY_EC ∨ m.algId = EVP_PKEY_DSA then
      m.algId
    else 0

/-- Serializes a natural number as four big-endian bytes (values taken
modulo 2^32), the fixed-width integer fields of the modelled DER
containers. -/
def nat32ToBytes (n : Nat) : List Nat :=
  [n / 16777216 % 256, n / 65536 % 256, n / 256 % 256, n % 256]

/-- Reads back a four-byte big-endian integer field, returning the value
and the remaining input, or `none` when the input is too short
(malformed). -/
def bytesToNat32 : List Nat → Option (Nat × List Nat)
  | a :: b :: c :: d :: rest =>
    some (a % 256 * 16777216 + b % 256 * 65536 + c % 256 * 256 + d % 256, rest)
  | _ => none

/-- Modelled from the spec: the DER `SubjectPublicKeyInfo` container for
a key — the algorithm identifier, the bit length, and the public key
material (length-prefixed), with no private component. -/
def encodeSpkiBytes (m : KeyMaterial) : List Nat :=
  nat32ToBytes m.algId ++ nat32ToBytes m.bits ++
  nat32ToBytes m.pubBytes.length ++ m.pubBytes

/-- Modelled from the spec: parsing a DER `SubjectPublicKeyInfo`.
Returns the interpreted key material (public-only), or `none` when the
input is malformed (truncated fields, or trailing or missing public-key
bytes). -/
def decodeSpkiBytes (buf : List Nat) : Option KeyMaterial :=
  match bytesToNat32 buf with
  | none => none
  | some (algId, r1) =>
    match bytesToNat32 r1 with
    | none => none
    | some (bits, r2) =>
      match bytesToNat32 r2 with
      | none => none
      | some (plen, r3) =>
        if r3.length = plen then
          some { algId := algId, bits := bits, pubBytes := r3, privBytes := none,
                 encodeErr := false }
        else none

/-- Modelled from the spec: the DER `Pkcs8PrivateKeyInfo` container — the
algorithm identifier, the bit length, the public material
(length-prefixed) and the private material. -/
def encodePkcs8Bytes (m : KeyMaterial) : List Nat :=
  nat32ToBytes m.algId ++ nat32ToBytes m.bits ++
  nat32ToBytes m.pubBytes.length ++ m.pubBytes ++ m.privBytes.getD []

/-- Modelled from the spec: parsing a DER `Pkcs8PrivateKeyInfo`.
Returns the interpreted key material with a private component, or
`none` when the input is malformed. -/
def decodePkcs8Bytes (buf : List Nat) : Option KeyMaterial :=
  match bytesToNat32 buf with
  | none => none
  | some (algId, r1) =>
    match bytesToNat32 r1 with
    | none => none
    | some (bits, r2) =>
      match bytesToNat32 r2 with
      | none => none
      | some (plen, r3) =>
        if plen ≤ r3.length then
          some { algId := algId, bits := bits, pubBytes := r3.take plen,
                 privBytes := some (r3.drop plen), encodeErr := false }
        else none

/-- Modelled from the spec: `CryptoNative_DecodeSubjectPublicKeyInfo`
(the `.c` implementation is not in the repository).  Decodes an X.509
SubjectPublicKeyInfo, verifying the interpreted algorithm identifier
against `algId`; returns a new handle with reference count 1 holding
public-only material, or null (`none`) on malformed input or algorithm
mismatch. -/
def decodeSubjectPublicKeyInfo (buf : List Nat) (algId : Nat) : Option EvpPKey :=
  match decodeSpkiBytes buf with
  | none => none
  | some m => if m.algId = algId then some { refCount := 1, material := some m } else none

/-- Modelled from the spec: `CryptoNative_DecodePkcs8PrivateKey` (the
`.c` implementation is not in the repository).  Decodes a
Pkcs8PrivateKeyInfo, verifying the interpreted algorithm identifier;
returns a new handle with reference count 1, or null (`none`) on
malformed input or algorithm mismatch. -/
def decodePkcs8PrivateKey (buf : List Nat) (algId : Nat) : Option EvpPKey :=
  match decodePkcs8Bytes buf with
  | none => none
  | some m => if m.algId = algId then some { refCount := 1, material := some m } else none

/-- Modelled from the spec: `CryptoNative_GetPkcs8PrivateKeySize` (the
`.c` implementation is not in the repository).  First component is the
status: 1 on success, -1 when the underlying library reports an
encoding error, -2 when the key is missing its private component
(checked so that a public-only key reports -2, not -1); second
component is the value stored through `p8size` (meaningful on
success). -/
def getPkcs8PrivateKeySize (pkey : EvpPKey) : Int × Int :=
  match pkey.material with
  | none => (-2, 0)
  | some m =>
    if m.privBytes.isNone then (-2, 0)
    else if m.encodeErr then (-1, 0)
    else (1, ((encodePkcs8Bytes m).length : Int))

/-- Writes `out` over the front of the caller-supplied buffer `buf`,
leaving any bytes past `out.length` unchanged — the raw-pointer write
of the encode operations (the caller guarantees `buf` is big enough). -/
def writeBytes (out buf : List Nat) : List Nat :=
  out ++ buf.drop out.length

/-- Modelled from the spec: `CryptoNative_EncodePkcs8PrivateKey` (the
`.c` implementation is not in the repository).  Writes the
Pkcs8PrivateKeyInfo encoding into `buf` and returns the updated buffer
together with the number of bytes written (negative when the encoder
fails). -/
def encodePkcs8PrivateKey (pkey : EvpPKey) (buf : List Nat) : List Nat × Int :=
  match pkey.material with
  | none => (buf, -1)
  | some m =>
    if m.privBytes.isNone ∨ m.encodeErr then (buf, -1)
    else
      let out := encodePkcs8Bytes m
      (writeBytes out buf, (out.length : Int))

/-- Modelled from the spec: `CryptoNative_GetSubjectPublicKeyInfoSize`
(the `.c` implementation is not in the repository).  The number of
bytes required for the SubjectPublicKeyInfo encoding, or a negative
value on error. -/
def getSubjectPublicKeyInfoSize (pkey : EvpPKey) : Int :=
  match pkey.material with
  | none => -1
  | some m => if m.encodeErr then -1 else ((encodeSpkiBytes m).length : Int)

/-- Modelled from the spec: `CryptoNative_EncodeSubjectPublicKeyInfo`
(the `.c` implementation is not in the repository).  Writes the
SubjectPublicKeyInfo encoding into `buf` and returns the updated
buffer together with the number of bytes written (negative when the
encoder fails). -/
def encodeSubjectPublicKeyInfo (pkey : EvpPKey) (buf : List Nat) : List Nat × Int :=
  match pkey.material with
  | none => (buf, -1)
  | some m =>
    if m.encodeErr then (buf, -1)
    else
      let out := encodeSpkiBytes m
      (writeBytes out buf, (out.length : Int))

/-- Modelled from the spec: the process-wide OpenSSL ENGINE subsystem —
whether ENGINE support is compiled in and available, and the lookup of
a named key in a named engine. -/
structure EngineEnv where
  available : Bool
  lookup : String → String → Option KeyMaterial

/-- Modelled from the spec: `CryptoNative_LoadPrivateKeyFromEngine` (the
`.c` implementation is not in the repository).  Loads a named key via
`ENGINE_load_private_key`; the second component is the `haveEngine`
out-parameter: 1 when ENGINE support is available, 0 otherwise,
regardless of whether the key was found.  No extra-handle context is
ever produced by engine loads (the declaration has no such
out-parameter). -/
def loadPrivateKeyFromEngine (env : EngineEnv) (engineName keyName : String) :
    Option EvpPKey × Int :=
  if env.available then
    match env.lookup engineName keyName with
    | none => (none, 1)
    | some m => (some { refCount := 1, material := some m }, 1)
  else (none, 0)

/-- Modelled from the spec: the provider subsystem — whether OpenSSL
providers are supported, and the lookup of a key URI in a named
provider; a found key optionally carries the (library context,
provider) pair that must be kept alive for the key's lifetime. -/
structure ProviderEnv where
  available : Bool
  lookup : String → String → Option (KeyMaterial × Option (Nat × Nat))

/-- Modelled from the spec: `CryptoNative_LoadKeyFromProvider` (the `.c`
implementation is not in the repository).  Loads a key by URI from a
named provider.  Result components: the handle (null on failure), the
`extraHandle` out-parameter (populated, with reference count 1, only on
success and only when the provider's backing resources must be kept
alive), and the `haveProvider` out-parameter (1 when providers are
supported, 0 otherwise). -/
def loadKeyFromProvider (env : ProviderEnv) (providerName keyUri : String) :
    Option EvpPKey × Option EvpPKeyExtraHandle × Int :=
  if env.available then
    match env.lookup providerName keyUri with
    | none => (none, none, 1)
    | some (m, extraInfo) =>
      (some { refCount := 1, material := some m },
       extraInfo.map fun p => { refCount := 1, libCtx := p.1, prov := p.2 },
       1)
  else (none, none, 0)

/-- The declared C type of every length-, size- or count-valued item
crossing the public interface, transcribed from `pal_evp_pkey.h`: the
decode input lengths, the size-query results and bytes-written returns,
the bit length, the raw key-material length of `FromData`, and the
reference count returned by `UpRef`. -/
def int32Items : List (String × String) :=
  [("CryptoNative_DecodeSubjectPublicKeyInfo.len", "int32_t"),
   ("CryptoNative_DecodePkcs8PrivateKey.len", "int32_t"),
   ("CryptoNative_GetPkcs8PrivateKeySize.p8size", "int32_t"),
   ("CryptoNative_GetPkcs8PrivateKeySize.return", "int32_t"),
   ("CryptoNative_EncodePkcs8PrivateKey.return", "int32_t"),
   ("CryptoNative_GetSubjectPublicKeyInfoSize.return", "int32_t"),
   ("CryptoNative_EncodeSubjectPublicKeyInfo.return", "int32_t"),
   ("CryptoNative_EvpPKeyBits.return", "int32_t"),
   ("CryptoNative_EvpPKeyFromData.keyLength", "int32_t"),
   ("CryptoNative_UpRefEvpPkey.return", "int32_t")]

/-- A value representable by the C type `int32_t`: a 32-bit signed
integer. -/
def isInt32 (n : Int) : Prop :=
  -2147483648 ≤ n ∧ n < 2147483648

instance (n : Int) : Decidable (isInt32 n) := by
  unfold isInt32
  infer_instance


/-- Reading back a four-byte field recovers the value (modulo 2^32) and
the remaining input. -/
theorem bytesToNat32_roundtrip (n : Nat) (rest : List Nat) :
    bytesToNat32 (nat32ToBytes n ++ rest) = some (n % 4294967296, rest) := by
  simp only [nat32ToBytes, bytesToNat32, List.cons_append, List.nil_append,
    Option.some.injEq, Prod.mk.injEq]
  exact ⟨by omega, trivial⟩

/-- Claim C9: Create() always succeeds (it is a total function into
`EvpPKey`, not `Option EvpPKey`) and returns a new, empty key handle
with reference count 1 and live (non-null) material. -/
theorem evpPkeyCreate_spec :
    evpPkeyCreate.refCount = 1 ∧ evpPkeyCreate.material.isSome = true := by
  constructor <;> rfl

/-- Claim C1: UpRef increments the handle's reference count in one
atomic step and, when the extra context is non-null, increments its
count too; it returns the post-increment count; on a live handle the
returned count is at least 2, and a returned count below 2 can only
arise from a handle already in teardown (count below 1). -/
theorem upRefEvpPkey_spec (pkey : EvpPKey) (extra : Option EvpPKeyExtraHandle) :
    (upRefEvpPkey pkey extra).1 = pkey.refCount + 1 ∧
    (upRefEvpPkey pkey extra).2.1 = { pkey with refCount := pkey.refCount + 1 } ∧
    (∀ e, extra = some e →
      (upRefEvpPkey pkey extra).2.2 = some { e with refCount := e.refCount + 1 }) ∧
    (extra = none → (upRefEvpPkey pkey extra).2.2 = none) ∧
    (1 ≤ pkey.refCount → 2 ≤ (upRefEvpPkey pkey extra).1) ∧
    ((upRefEvpPkey pkey extra).1 < 2 → pkey.refCount < 1) := by
  refine ⟨rfl, rfl, ?_, ?_, ?_, ?_⟩
  · rintro e rfl
    rfl
  · rintro rfl
    rfl
  · intro h
    simp only [upRefEvpPkey]
    omega
  · intro h
    simp only [upRefEvpPkey] at h
    omega

/-- Claim C1 witness: concrete instantiation on a live handle with
reference count 1 and an extra context with count 3. -/
theorem upRefEvpPkey_spec_witness :
    (upRefEvpPkey { refCount := 1, material := none }
        (some { refCount := 3, libCtx := 5, prov := 7 })).1 = 2 ∧
    (upRefEvpPkey { refCount := 1, material := none }
        (some { refCount := 3, libCtx := 5, prov := 7 })).2.2 =
      some { refCount := 4, libCtx := 5, prov := 7 } ∧
    2 ≤ (upRefEvpPkey { refCount := 1, material := none }
        (some { refCount := 3, libCtx := 5, prov := 7 })).1 := by
  have h := upRefEvpPkey_spec { refCount := 1, material := none }
    (some { refCount := 3, libCtx := 5, prov := 7 })
  exact ⟨h.1, h.2.2.1 _ rfl, h.2.2.2.2.1 (by decide)⟩

/-- Claim C2: Destroy is a no-op on a null handle, decrements a live
handle's reference count, releases the key material when the count
reaches zero, releases exactly one reference on the extra context
whenever it is non-null (and touches no extra context otherwise); it is
a total function, hence never fails. -/
theorem evpPkeyDestroy_spec (pkey : Option EvpPKey) (extra : Option EvpPKeyExtraHandle) :
    (pkey = none → (evpPkeyDestroy pkey extra).1 = none) ∧
    (∀ p, pkey = some p → 2 ≤ p.refCount →
      (evpPkeyDestroy pkey extra).1 = some { p with refCount := p.refCount - 1 }) ∧
    (∀ p, pkey = some p → p.refCount ≤ 1 → (evpPkeyDestroy pkey extra).1 = none) ∧
    (∀ e, extra = some e → (evpPkeyDestroy pkey extra).2 = extraHandleRelease e) ∧
    (extra = none → (evpPkeyDestroy pkey extra).2 = none) := by
  refine ⟨?_, ?_, ?_, ?_, ?_⟩
  · rintro rfl
    rfl
  · rintro p rfl h
    simp only [evpPkeyDestroy, if_neg (by omega : ¬p.refCount ≤ 1)]
  · rintro p rfl h
    simp only [evpPkeyDestroy, if_pos h]
  · rintro e rfl
    rfl
  · rintro rfl
    rfl

/-- Claim C2 witness: destroying a handle with reference count 2 paired
with an extra context with count 1 decrements the handle and tears the
extra context down. -/
theorem evpPkeyDestroy_spec_witness :
    (evpPkeyDestroy (some { refCount := 2, material := none })
        (some { refCount := 1, libCtx := 0, prov := 0 })).1 =
      some { refCount := 1, material := none } ∧
    (evpPkeyDestroy (some { refCount := 2, material := none })
        (some { refCount := 1, libCtx := 0, prov := 0 })).2 = none := by
  have h := evpPkeyDestroy_spec (some { refCount := 2, material := none })
    (some { refCount := 1, libCtx := 0, prov := 0 })
  exact ⟨h.2.1 _ rfl (by decide), (h.2.2.2.1 _ rfl).trans (by decide)⟩

/-- Claim C7: TypeOf is a pure total classification into the closed set
consisting of unknown (0), RSA, EC and DSA; a key whose base algorithm
is one of the three recognized families is mapped to its own tag, and
any other algorithm is mapped to unknown. -/
theorem evpPKeyType_spec (key : EvpPKey) :
    (evpPKeyType key = 0 ∨ evpPKeyType key = EVP_PKEY_RSA ∨
      evpPKeyType key = EVP_PKEY_EC ∨ evpPKeyType key = EVP_PKEY_DSA) ∧
    (∀ m, key.material = some m →
      (m.algId = EVP_PKEY_RSA ∨ m.algId = EVP_PKEY_EC ∨ m.algId = EVP_PKEY_DSA) →
      evpPKeyType key = m.algId) ∧
    (∀ m, key.material = some m → m.algId ≠ EVP_PKEY_RSA → m.algId ≠ EVP_PKEY_EC →
      m.algId ≠ EVP_PKEY_DSA → evpPKeyType key = 0) := by
  refine ⟨?_, ?_, ?_⟩
  · match h : key.material with
    | none => simp [evpPKeyType, h]
    | some m =>
      simp only [evpPKeyType, h]
      split
      · rename_i hc
        rcases hc with hc | hc | hc
        · exact Or.inr (Or.inl hc)
        · exact Or.inr (Or.inr (Or.inl hc))
        · exact Or.inr (Or.inr (Or.inr hc))
      · exact Or.inl rfl
  · intro m hm hc
    simp [evpPKeyType, hm, if_pos hc]
  · intro m hm h1 h2 h3
    simp only [evpPKeyType, hm]
    rw [if_neg]
    push_neg
    exact ⟨h1, h2, h3⟩

/-- Claim C7 witness: concrete classifications of an EC key and of a key
from an unrecognized algorithm family. -/
theorem evpPKeyType_spec_witness :
    evpPKeyType { refCount := 1,
                  material := some { algId := 408, bits := 256, pubBytes := [],
                                     privBytes := none, encodeErr := false } } = 408 ∧
    evpPKeyType { refCount := 1,
                  material := some { algId := 912, bits := 0, pubBytes := [],
                                     privBytes := none, encodeErr := false } } = 0 := by
  constructor
  · exact (evpPKeyType_spec ⟨1, some ⟨408, 256, [], none, false⟩⟩).2.1
      ⟨408, 256, [], none, false⟩ rfl (by decide)
  · exact (evpPKeyType_spec ⟨1, some ⟨912, 0, [], none, false⟩⟩).2.2
      ⟨912, 0, [], none, false⟩ rfl (by decide) (by decide) (by decide)


/-- Claim C3: the PKCS#8 size query has exactly the three outcomes
1 (success), -1 (library encoding error) and -2 (missing private key);
on success the reported size is exactly the byte length of the
Pkcs8PrivateKeyInfo encoding; a handle without private material yields
-2; and -1 arises only for a key that has private material and whose
encoder reports an error, so a public-only handle never yields the
generic -1 sentinel. -/
theorem getPkcs8PrivateKeySize_spec (pkey : EvpPKey) :
    ((getPkcs8PrivateKeySize pkey).1 = 1 ∨ (getPkcs8PrivateKeySize pkey).1 = -1 ∨
      (getPkcs8PrivateKeySize pkey).1 = -2) ∧
    (∀ m, pkey.material = some m → (getPkcs8PrivateKeySize pkey).1 = 1 →
      (getPkcs8PrivateKeySize pkey).2 = ((encodePkcs8Bytes m).length : Int)) ∧
    (∀ m, pkey.material = some m → m.privBytes = none →
      (getPkcs8PrivateKeySize pkey).1 = -2) ∧
    (pkey.material = none → (getPkcs8PrivateKeySize pkey).1 = -2) ∧
    (∀ m, pkey.material = some m → (getPkcs8PrivateKeySize pkey).1 = -1 →
      m.privBytes.isSome = true ∧ m.encodeErr = true) := by
  obtain ⟨rc, mat⟩ := pkey
  match mat with
  | none => simp [getPkcs8PrivateKeySize]
  | some m =>
    by_cases hp : m.privBytes.isNone <;> by_cases he : m.encodeErr <;>
      simp_all [getPkcs8PrivateKeySize, Option.isNone_iff_eq_none,
        Option.isSome_iff_ne_none]

/-- Claim C3 witness: a private key reports success with the exact
encoded length, and a public-only key reports -2. -/
theorem getPkcs8PrivateKeySize_spec_witness :
    (getPkcs8PrivateKeySize ⟨1, some ⟨6, 16, [1, 2], some [3], false⟩⟩).2 =
      ((encodePkcs8Bytes ⟨6, 16, [1, 2], some [3], false⟩).length : Int) ∧
    (getPkcs8PrivateKeySize ⟨1, some ⟨6, 16, [1, 2], none, false⟩⟩).1 = -2 := by
  constructor
  · exact (getPkcs8PrivateKeySize_spec ⟨1, some ⟨6, 16, [1, 2], some [3], false⟩⟩).2.1
      ⟨6, 16, [1, 2], some [3], false⟩ rfl (by decide)
  · exact (getPkcs8PrivateKeySize_spec ⟨1, some ⟨6, 16, [1, 2], none, false⟩⟩).2.2.1
      ⟨6, 16, [1, 2], none, false⟩ rfl rfl

/-- Claim C4: when the PKCS#8 size query succeeds with size n, encoding
into a buffer of exactly n bytes reports exactly n bytes written and
leaves a buffer of exactly n bytes (never fewer); symmetrically for the
SubjectPublicKeyInfo size query and encoder. -/
theorem encode_size_write_consistency (pkey : EvpPKey) (buf : List Nat) (n : Nat) :
    (getPkcs8PrivateKeySize pkey = (1, (n : Int)) → buf.length = n →
      (encodePkcs8PrivateKey pkey buf).2 = (n : Int) ∧
      (encodePkcs8PrivateKey pkey buf).1.length = n ∧
      (encodePkcs8PrivateKey pkey buf).1 =
        (encodePkcs8PrivateKey pkey (List.replicate n 0)).1) ∧
    (getSubjectPublicKeyInfoSize pkey = (n : Int) → buf.length = n →
      (encodeSubjectPublicKeyInfo pkey buf).2 = (n : Int) ∧
      (encodeSubjectPublicKeyInfo pkey buf).1.length = n) := by
  obtain ⟨rc, mat⟩ := pkey
  match mat with
  | none =>
    constructor
    · intro h
      simp [getPkcs8PrivateKeySize, Prod.ext_iff] at h
    · intro h
      simp only [getSubjectPublicKeyInfoSize] at h
      omega
  | some m =>
    constructor
    · intro hsz hbuf
      by_cases hp : m.privBytes.isNone
      · simp [getPkcs8PrivateKeySize, hp, Prod.ext_iff] at hsz
      · by_cases he : m.encodeErr
        · simp [getPkcs8PrivateKeySize, hp, he, Prod.ext_iff] at hsz
        · have hn : (encodePkcs8Bytes m).length = n := by
            simp [getPkcs8PrivateKeySize, hp, he, Prod.ext_iff] at hsz
            exact_mod_cast hsz
          simp [encodePkcs8PrivateKey, hp, he, writeBytes, hn, hbuf,
            List.drop_eq_nil_of_le]
    · intro hsz hbuf
      by_cases he : m.encodeErr
      · simp only [getSubjectPublicKeyInfoSize, he, if_pos] at hsz
        omega
      · have hn : (encodeSpkiBytes m).length = n := by
          simp [getSubjectPublicKeyInfoSize, he] at hsz
          exact_mod_cast hsz
        simp [encodeSubjectPublicKeyInfo, he, writeBytes, hn, hbuf,
          List.drop_eq_nil_of_le]

/-- Claim C4 witness: a concrete private key whose size query reports 15
bytes; encoding into a 15-byte buffer writes exactly 15 bytes. -/
theorem encode_size_write_consistency_witness :
    (encodePkcs8PrivateKey ⟨1, some ⟨6, 16, [1, 2], some [3], false⟩⟩
        (List.replicate 15 0)).2 = (15 : Int) ∧
    (encodePkcs8PrivateKey ⟨1, some ⟨6, 16, [1, 2], some [3], false⟩⟩
        (List.replicate 15 0)).1.length = 15 := by
  have h := (encode_size_write_consistency ⟨1, some ⟨6, 16, [1, 2], some [3], false⟩⟩
    (List.replicate 15 0) 15).1 (by decide) (by decide)
  exact ⟨h.1, h.2.1⟩

/-- Claim C6: both decoders return null on malformed input, return null
on an algorithm-identifier mismatch even when the DER parses, and on
success return a new handle with reference count 1. -/
theorem decode_reject_spec (buf : List Nat) (algId : Nat) :
    (decodeSpkiBytes buf = none → decodeSubjectPublicKeyInfo buf algId = none) ∧
    (∀ m, decodeSpkiBytes buf = some m → m.algId ≠ algId →
      decodeSubjectPublicKeyInfo buf algId = none) ∧
    (∀ k, decodeSubjectPublicKeyInfo buf algId = some k →
      k.refCount = 1 ∧ k.material.isSome = true) ∧
    (decodePkcs8Bytes buf = none → decodePkcs8PrivateKey buf algId = none) ∧
    (∀ m, decodePkcs8Bytes buf = some m → m.algId ≠ algId →
      decodePkcs8PrivateKey buf algId = none) ∧
    (∀ k, decodePkcs8PrivateKey buf algId = some k →
      k.refCount = 1 ∧ k.material.isSome = true) := by
  refine ⟨?_, ?_, ?_, ?_, ?_, ?_⟩
  · intro h
    simp [decodeSubjectPublicKeyInfo, h]
  · intro m hm hne
    simp [decodeSubjectPublicKeyInfo, hm, hne]
  · intro k hk
    unfold decodeSubjectPublicKeyInfo at hk
    split at hk
    · exact absurd hk (by simp)
    · split at hk
      · cases hk
        exact ⟨rfl, rfl⟩
      · exact absurd hk (by simp)
  · intro h
    simp [decodePkcs8PrivateKey, h]
  · intro m hm hne
    simp [decodePkcs8PrivateKey, hm, hne]
  · intro k hk
    unfold decodePkcs8PrivateKey at hk
    split at hk
    · exact absurd hk (by simp)
    · split at hk
      · cases hk
        exact ⟨rfl, rfl⟩
      · exact absurd hk (by simp)

/-- Claim C6 witness: an empty (malformed) input decodes to null, a
well-formed SubjectPublicKeyInfo for RSA (algorithm id 6) decodes to
null when EC (408) is expected, and a successful decode yields a handle
with reference count 1. -/
theorem decode_reject_spec_witness :
    decodeSubjectPublicKeyInfo [] 6 = none ∧
    decodeSubjectPublicKeyInfo (encodeSpkiBytes ⟨6, 16, [1, 2], none, false⟩) 408 =
      none ∧
    (⟨1, some ⟨6, 16, [1, 2], none, false⟩⟩ : EvpPKey).refCount = 1 := by
  refine ⟨?_, ?_, ?_⟩
  · exact (decode_reject_spec [] 6).1 rfl
  · exact (decode_reject_spec (encodeSpkiBytes ⟨6, 16, [1, 2], none, false⟩) 408).2.1
      ⟨6, 16, [1, 2], none, false⟩ (by decide) (by decide)
  · exact ((decode_reject_spec (encodeSpkiBytes ⟨6, 16, [1, 2], none, false⟩) 6).2.2.1
      ⟨1, some ⟨6, 16, [1, 2], none, false⟩⟩ (by decide)).1


/-- Decoding the SubjectPublicKeyInfo produced by the encoder recovers
the key material, public-only, whenever the integer fields fit in the
container's 32-bit fields. -/
theorem decodeSpkiBytes_encodeSpkiBytes (m : KeyMaterial)
    (halg : m.algId < 4294967296) (hbits : m.bits < 4294967296)
    (hlen : m.pubBytes.length < 4294967296) :
    decodeSpkiBytes (encodeSpkiBytes m) =
      some { algId := m.algId, bits := m.bits, pubBytes := m.pubBytes,
             privBytes := none, encodeErr := false } := by
  have h1 : encodeSpkiBytes m =
      nat32ToBytes m.algId ++ (nat32ToBytes m.bits ++
        (nat32ToBytes m.pubBytes.length ++ m.pubBytes)) := by
    simp [encodeSpkiBytes, List.append_assoc]
  unfold decodeSpkiBytes
  rw [h1, bytesToNat32_roundtrip]
  simp only [bytesToNat32_roundtrip, Nat.mod_eq_of_lt halg, Nat.mod_eq_of_lt hbits,
    Nat.mod_eq_of_lt hlen]
  simp

/-- Claim C5: for a key handle whose SubjectPublicKeyInfo encoding
succeeds, decoding the encoder's output (with the key's own algorithm
identifier) yields a handle with identical Bits and TypeOf results; and
the encoder is deterministic: encoding the same handle into two exactly
sized buffers produces byte-identical output regardless of the buffers'
prior contents. -/
theorem spki_roundtrip_spec (pkey : EvpPKey) (m : KeyMaterial) (buf1 buf2 : List Nat)
    (hm : pkey.material = some m) (herr : m.encodeErr = false)
    (halg : m.algId < 2147483648) (hbits : m.bits < 2147483648)
    (hlen : m.pubBytes.length < 2147483648)
    (hb1 : (buf1.length : Int) = getSubjectPublicKeyInfoSize pkey)
    (hb2 : (buf2.length : Int) = getSubjectPublicKeyInfoSize pkey) :
    (encodeSubjectPublicKeyInfo pkey buf1).1 = (encodeSubjectPublicKeyInfo pkey buf2).1 ∧
    ∃ k, decodeSubjectPublicKeyInfo (encodeSubjectPublicKeyInfo pkey buf1).1 m.algId =
        some k ∧
      evpPKeyBits k = evpPKeyBits pkey ∧ evpPKeyType k = evpPKeyType pkey := by
  have hsz : getSubjectPublicKeyInfoSize pkey = ((encodeSpkiBytes m).length : Int) := by
    simp [getSubjectPublicKeyInfoSize, hm, herr]
  have hl1 : buf1.length = (encodeSpkiBytes m).length := by
    rw [hsz] at hb1
    exact_mod_cast hb1
  have hl2 : buf2.length = (encodeSpkiBytes m).length := by
    rw [hsz] at hb2
    exact_mod_cast hb2
  have henc1 : (encodeSubjectPublicKeyInfo pkey buf1).1 = encodeSpkiBytes m := by
    simp [encodeSubjectPublicKeyInfo, hm, herr, writeBytes,
      List.drop_eq_nil_of_le hl1.le]
  have henc2 : (encodeSubjectPublicKeyInfo pkey buf2).1 = encodeSpkiBytes m := by
    simp [encodeSubjectPublicKeyInfo, hm, herr, writeBytes,
      List.drop_eq_nil_of_le hl2.le]
  refine ⟨henc1.trans henc2.symm, ?_⟩
  refine ⟨{ refCount := 1,
            material := some { algId := m.algId, bits := m.bits,
                               pubBytes := m.pubBytes, privBytes := none,
                               encodeErr := false } }, ?_, ?_, ?_⟩
  · rw [henc1]
    simp [decodeSubjectPublicKeyInfo,
      decodeSpkiBytes_encodeSpkiBytes m (by omega) (by omega) (by omega)]
  · simp [evpPKeyBits, hm]
  · simp [evpPKeyType, hm]

/-- Claim C5 witness: a concrete RSA key; its 15-byte
SubjectPublicKeyInfo encoding is identical across two different exactly
sized buffers, and decoding it back preserves Bits and TypeOf. -/
theorem spki_roundtrip_spec_witness :
    (encodeSubjectPublicKeyInfo ⟨1, some ⟨6, 16, [1, 2, 3], some [9], false⟩⟩
        (List.replicate 15 0)).1 =
      (encodeSubjectPublicKeyInfo ⟨1, some ⟨6, 16, [1, 2, 3], some [9], false⟩⟩
        (List.replicate 15 7)).1 ∧
    ∃ k, decodeSubjectPublicKeyInfo
        (encodeSubjectPublicKeyInfo ⟨1, some ⟨6, 16, [1, 2, 3], some [9], false⟩⟩
          (List.replicate 15 0)).1 6 = some k ∧
      evpPKeyBits k = evpPKeyBits ⟨1, some ⟨6, 16, [1, 2, 3], some [9], false⟩⟩ ∧
      evpPKeyType k = evpPKeyType ⟨1, some ⟨6, 16, [1, 2, 3], some [9], false⟩⟩ :=
  spki_roundtrip_spec ⟨1, some ⟨6, 16, [1, 2, 3], some [9], false⟩⟩
    ⟨6, 16, [1, 2, 3], some [9], false⟩ (List.replicate 15 0) (List.replicate 15 7)
    rfl rfl (by decide) (by decide) (by decide) (by decide) (by decide)

/-- Claim C8: the engine and provider loaders report subsystem
availability through a dedicated flag (1 when the subsystem is
supported, even when the key is not found; 0 when unsupported) distinct
from the null-handle failure result; an unavailable subsystem yields a
null handle and flag 0; the provider loader's extra-handle
out-parameter is populated (with reference count 1) only alongside a
successful, non-null handle; the engine loaders produce no extra-handle
context at all (their declarations have no such out-parameter). -/
theorem load_availability_spec (eenv : EngineEnv) (penv : ProviderEnv)
    (en kn pn uri : String) :
    (eenv.available = true → (loadPrivateKeyFromEngine eenv en kn).2 = 1) ∧
    (eenv.available = false → (loadPrivateKeyFromEngine eenv en kn).2 = 0 ∧
      (loadPrivateKeyFromEngine eenv en kn).1 = none) ∧
    (penv.available = true → (loadKeyFromProvider penv pn uri).2.2 = 1) ∧
    (penv.available = false → (loadKeyFromProvider penv pn uri).2.2 = 0 ∧
      (loadKeyFromProvider penv pn uri).1 = none ∧
      (loadKeyFromProvider penv pn uri).2.1 = none) ∧
    (∀ e, (loadKeyFromProvider penv pn uri).2.1 = some e →
      (loadKeyFromProvider penv pn uri).1.isSome = true ∧ e.refCount = 1) := by
  refine ⟨?_, ?_, ?_, ?_, ?_⟩
  · intro h
    unfold loadPrivateKeyFromEngine
    rw [h]
    simp only [if_true]
    split <;> rfl
  · intro h
    unfold loadPrivateKeyFromEngine
    rw [h]
    exact ⟨rfl, rfl⟩
  · intro h
    unfold loadKeyFromProvider
    rw [h]
    simp only [if_true]
    split
    · rfl
    · rfl
  · intro h
    unfold loadKeyFromProvider
    rw [h]
    exact ⟨rfl, rfl, rfl⟩
  · intro e he
    unfold loadKeyFromProvider at he ⊢
    by_cases h : penv.available
    · rw [h] at he ⊢
      simp only [if_true] at he ⊢
      rcases hlk : penv.lookup pn uri with _ | ⟨m, extraInfo⟩ <;> rw [hlk] at he
      · exact Option.noConfusion he
      · rcases extraInfo with _ | p
        · exact Option.noConfusion he
        · injection he with he
          subst he
          exact ⟨rfl, rfl⟩
    · rw [eq_false_of_ne_true h] at he
      simp at he

/-- Claim C8 witness: with engine support compiled out the loader
reports flag 0 and a null handle; with provider support present, a
provider-backed key yields flag 1, a live handle and an extra context
with reference count 1. -/
theorem load_availability_spec_witness :
    (loadPrivateKeyFromEngine ⟨false, fun _ _ => none⟩ "eng" "key").2 = 0 ∧
    (loadPrivateKeyFromEngine ⟨false, fun _ _ => none⟩ "eng" "key").1 = none ∧
    (loadKeyFromProvider
        ⟨true, fun _ _ => some (⟨6, 16, [1], none, false⟩, some (4, 5))⟩
        "prov" "uri").2.2 = 1 ∧
    (loadKeyFromProvider
        ⟨true, fun _ _ => some (⟨6, 16, [1], none, false⟩, some (4, 5))⟩
        "prov" "uri").1.isSome = true := by
  have h := load_availability_spec ⟨false, fun _ _ => none⟩
    ⟨true, fun _ _ => some (⟨6, 16, [1], none, false⟩, some (4, 5))⟩
    "eng" "key" "prov" "uri"
  exact ⟨(h.2.1 rfl).1, (h.2.1 rfl).2, h.2.2.1 rfl,
    (h.2.2.2.2 ⟨1, 4, 5⟩ rfl).1⟩

/-- Claim C10: every length, size or count crossing the public interface
is declared `int32_t` in the header, and an `int32_t` value is at most
2147483647, so no key, encoding or input longer than 2^31 - 1 bytes is
representable at this interface. -/
theorem int32_interface_spec :
    (∀ p ∈ int32Items, p.2 = "int32_t") ∧
    (∀ n : Int, isInt32 n → n ≤ 2147483647) := by
  constructor
  · decide
  · intro n h
    unfold isInt32 at h
    omega

/-- Claim C10 witness: 2147483647 is `int32_t`-representable and is
bounded by 2^31 - 1, and the first listed interface item is declared
`int32_t`. -/
theorem int32_interface_spec_witness :
    isInt32 2147483647 ∧ (2147483647 : Int) ≤ 2147483647 :=
  ⟨by decide, int32_interface_spec.2 2147483647 (by decide)⟩

end PalEvpPkey
